import Mathlib

/-!
Verification of the WasmEdge Stack Manager (runtime/stackmgr.h).

The C++ class `WasmEdge::Runtime::StackManager` keeps three parallel growable
arrays: `ValueStack` (operand values), `TypeStack` (one width tag per operand)
and `FrameStack` (call activation records).  We embed the class shallowly:
each `std::vector` becomes a `List` whose index `i` is the vector position `i`
(so the back of the vector is the last list element), machine integers become
`Nat`, and the opaque `AST::InstrView::iterator` becomes a structure carrying
the only two observations the stack manager makes of it: its position and the
result of `isLast()`.  The `ValVariant` payload is opaque to the stack manager
(it is only moved around), so it is embedded as `Nat`; the width information
that the templated push reads via `sizeof(T)` is passed as an explicit `szT`
argument, mirroring the template instantiation.
-/

namespace WasmEdge
namespace Runtime

/-- Operand values (`ValVariant`): opaque payloads moved around by the stack. -/
abbrev Value := Nat

/-- Embedding of `AST::InstrView::iterator`: the stack manager only stores it,
compares nothing, and queries `isLast()` on it. -/
structure InstrIter where
  pos : Nat
  isLast : Bool
deriving Repr, DecidableEq, Inhabited

/-- Embedding of `StackManager::Frame` (stackmgr.h lines 27-37): module
pointer (opaque id), resume iterator `From`, local count, arity, and `VPos`,
the operand-stack height at frame creation. -/
structure Frame where
  Module : Nat
  From : InstrIter
  Locals : Nat
  Arity : Nat
  VPos : Nat
deriving Repr, DecidableEq, Inhabited

/-- Embedding of the `StackManager` state: the three private vectors. -/
structure StackManager where
  ValueStack : List Value
  TypeStack : List Nat
  FrameStack : List Frame
deriving Repr, DecidableEq

/-- The freshly constructed stack manager: all three vectors empty
(the constructor only calls `reserve`, which does not change contents). -/
def StackManager.init : StackManager := ⟨[], [], []⟩

/-- `size()`: the operand stack's length. -/
def StackManager.size (s : StackManager) : Nat := s.ValueStack.length

/-- `getTop()`: the back of the operand stack (unsafe in C++; totalized
with a default that is never reached under the stated preconditions). -/
def StackManager.getTop (s : StackManager) : Value := s.ValueStack.getLastD 0

/-- `getModule()`: the top frame's module (unsafe in C++; totalized). -/
def StackManager.getModule (s : StackManager) : Nat :=
  (s.FrameStack.getLastD default).Module

/-- The width-only `push` template (lines 78-92): appends the value and a tag
computed from `sizeof(T)`, here passed explicitly as `szT`: tag 0 for 4-byte
values, 1 for 8-byte values, 2 for every other size. -/
def StackManager.push (s : StackManager) (Val : Value) (szT : Nat) :
    StackManager :=
  { s with
    ValueStack := s.ValueStack ++ [Val]
    TypeStack :=
      s.TypeStack ++ [if szT = 4 then 0 else if szT = 8 then 1 else 2] }

/-- The explicit-tag `push` overload (lines 94-97): appends the value to the
operand stack and the given tag to the type stack. -/
def StackManager.pushTyped (s : StackManager) (Val : Value) (Typ : Nat) :
    StackManager :=
  { s with
    ValueStack := s.ValueStack ++ [Val]
    TypeStack := s.TypeStack ++ [Typ] }

/-- `pop()` (lines 100-105): returns the back of the operand stack and
removes the back of both the operand and type stacks. -/
def StackManager.pop (s : StackManager) : Value × StackManager :=
  (s.ValueStack.getLastD 0,
   { s with
     ValueStack := s.ValueStack.dropLast
     TypeStack := s.TypeStack.dropLast })

/-- `pushFrame` (lines 108-130).  Normal call: append a frame whose `VPos` is
the current operand height.  Tail call: erase the region
`[VPos - Locals, size - LocalNum)` from both value and type stacks (each
using its own length, as the C++ iterator arithmetic does), then overwrite
the top frame's `Module`, `Locals`, `Arity` and `VPos` (keeping its `From`).
The C++ `assuming` preconditions guard the tail-call branch; on an empty
frame stack (precondition violated, C++ undefined) the model is the
identity. -/
def StackManager.pushFrame (s : StackManager) (Module : Nat)
    (From : InstrIter) (LocalNum Arity : Nat) (IsTailCall : Bool) :
    StackManager :=
  if !IsTailCall then
    { s with
      FrameStack :=
        s.FrameStack ++ [⟨Module, From, LocalNum, Arity, s.ValueStack.length⟩] }
  else
    match s.FrameStack.getLast? with
    | none => s
    | some f =>
      let vs := s.ValueStack.take (f.VPos - f.Locals) ++
                s.ValueStack.drop (s.ValueStack.length - LocalNum)
      let ts := s.TypeStack.take (f.VPos - f.Locals) ++
                s.TypeStack.drop (s.TypeStack.length - LocalNum)
      { ValueStack := vs
        TypeStack := ts
        FrameStack :=
          s.FrameStack.dropLast ++
            [⟨Module, f.From, LocalNum, Arity, vs.length⟩] }

/-- `popFrame()` (lines 133-147): erase `[VPos - Locals, size - Arity)` from
both stacks, pop the top frame, and return its saved `From` iterator.  On an
empty frame stack (precondition violated, C++ undefined) the model returns a
default iterator and leaves the state unchanged. -/
def StackManager.popFrame (s : StackManager) : InstrIter × StackManager :=
  match s.FrameStack.getLast? with
  | none => (default, s)
  | some f =>
    (f.From,
     { ValueStack := s.ValueStack.take (f.VPos - f.Locals) ++
                     s.ValueStack.drop (s.ValueStack.length - f.Arity)
       TypeStack := s.TypeStack.take (f.VPos - f.Locals) ++
                    s.TypeStack.drop (s.TypeStack.length - f.Arity)
       FrameStack := s.FrameStack.dropLast })

/-- `stackErase(EraseBegin, EraseEnd)` (lines 150-157): removes the region
`[size - EraseBegin, size - EraseEnd)` from both stacks, each measured with
its own length as in the C++ iterator arithmetic. -/
def StackManager.stackErase (s : StackManager) (EraseBegin EraseEnd : Nat) :
    StackManager :=
  { s with
    ValueStack := s.ValueStack.take (s.ValueStack.length - EraseBegin) ++
                  s.ValueStack.drop (s.ValueStack.length - EraseEnd)
    TypeStack := s.TypeStack.take (s.TypeStack.length - EraseBegin) ++
                 s.TypeStack.drop (s.TypeStack.length - EraseEnd) }

/-- `maybePopFrame(PC)` (lines 160-166): if more than one frame is present
and the instruction at `PC` is flagged last, perform `popFrame()`; otherwise
return `PC` with the state unchanged. -/
def StackManager.maybePopFrame (s : StackManager) (PC : InstrIter) :
    InstrIter × StackManager :=
  if s.FrameStack.length > 1 && PC.isLast then s.popFrame else (PC, s)

/-- `reset()` (lines 175-178): clears the value and frame stacks.  Note the
C++ body does NOT clear `TypeStack`; the embedding is faithful to that. -/
def StackManager.reset (s : StackManager) : StackManager :=
  { s with ValueStack := [], FrameStack := [] }

/-- `getFrameStack()` (lines 181-183): returns the frame vector by value. -/
def StackManager.getFrameStack (s : StackManager) : List Frame := s.FrameStack

/-- `getValueStack()` (lines 184-186): returns the value vector by value. -/
def StackManager.getValueStack (s : StackManager) : List Value := s.ValueStack

/-- `getTypeStack()` (lines 187-189): returns the type vector by value. -/
def StackManager.getTypeStack (s : StackManager) : List Nat := s.TypeStack

/-- `setFrameStack(fs)` (lines 191-193): overwrites the frame vector. -/
def StackManager.setFrameStack (s : StackManager) (fs : List Frame) :
    StackManager :=
  { s with FrameStack := fs }

/-- `setValueStack(vs)` (lines 194-196): overwrites the value vector. -/
def StackManager.setValueStack (s : StackManager) (vs : List Value) :
    StackManager :=
  { s with ValueStack := vs }

/-- `setTypeStack(ts)` (lines 197-199): overwrites the type vector. -/
def StackManager.setTypeStack (s : StackManager) (ts : List Nat) :
    StackManager :=
  { s with TypeStack := ts }

/-- One operand-stack operation of the invariant claim: width-only push,
explicit-tag push, pop, or `stackErase`. -/
inductive StackOp where
  | pushW (v : Value) (sz : Nat)
  | pushT (v : Value) (tag : Nat)
  | popV
  | erase (b e : Nat)
deriving Repr, DecidableEq

/-- Apply one operation to the stack manager via the embedded methods. -/
def applyOp (s : StackManager) : StackOp → StackManager
  | .pushW v sz => s.push v sz
  | .pushT v t => s.pushTyped v t
  | .popV => (s.pop).2
  | .erase b e => s.stackErase b e

/-- The C++ precondition of one operation in a given state (`pop` needs a
non-empty stack, `stackErase` its `assuming` bounds). -/
def opOk (s : StackManager) : StackOp → Bool
  | .pushW _ _ => true
  | .pushT _ _ => true
  | .popV => decide (0 < s.ValueStack.length ∧ 0 < s.TypeStack.length)
  | .erase b e => decide (e ≤ b ∧ b ≤ s.ValueStack.length ∧
      b ≤ s.TypeStack.length)

/-- Run a sequence of operations left to right. -/
def runOps (s : StackManager) : List StackOp → StackManager
  | [] => s
  | op :: ops => runOps (applyOp s op) ops

/-- Every operation of the sequence is performed in a state satisfying its
precondition. -/
def seqOk (s : StackManager) : List StackOp → Bool
  | [] => true
  | op :: ops => opOk s op && seqOk (applyOp s op) ops

/-- Ghost semantics of the same operations on a single stack of
(value, tag) pairs: each push appends the value together with the tag it was
pushed with, and pop/erase remove whole pairs. -/
def applyOpP (ps : List (Value × Nat)) : StackOp → List (Value × Nat)
  | .pushW v sz =>
      ps ++ [(v, if sz = 4 then 0 else if sz = 8 then 1 else 2)]
  | .pushT v t => ps ++ [(v, t)]
  | .popV => ps.dropLast
  | .erase b e => ps.take (ps.length - b) ++ ps.drop (ps.length - e)

/-- Run the ghost semantics over a sequence. -/
def runOpsP (ps : List (Value × Nat)) : List StackOp → List (Value × Nat)
  | [] => ps
  | op :: ops => runOpsP (applyOpP ps op) ops

/-- Length of a vector after erasing the region `[k, d)` (take-append-drop
pattern shared by `stackErase`, `popFrame` and the tail-call branch). -/
theorem eraseSeg_length {α : Type} (l : List α) (k d : Nat)
    (hk : k ≤ l.length) :
    (l.take k ++ l.drop d).length = k + (l.length - d) := by
  simp [List.length_append, List.length_take, List.length_drop,
    Nat.min_eq_left hk]

/-- The part below an erased region is preserved. -/
theorem eraseSeg_take {α : Type} (l : List α) (k d : Nat)
    (hk : k ≤ l.length) :
    (l.take k ++ l.drop d).take k = l.take k :=
  List.take_left' (by simp [List.length_take, Nat.min_eq_left hk])

/-- The part above an erased region survives, shifted down to position `k`. -/
theorem eraseSeg_drop {α : Type} (l : List α) (k d : Nat)
    (hk : k ≤ l.length) :
    (l.take k ++ l.drop d).drop k = l.drop d :=
  List.drop_left' (by simp [List.length_take, Nat.min_eq_left hk])

/-- C1 (code evaluation at the failing input): starting from a state with one
pushed value (operand stack `[5]`, type stack `[1]`, no frames), `reset()`
empties the operand and frame stacks but leaves the type-tag stack at length
1, so not all three stacks are empty and the parallel-length invariant is
broken after `reset()`. -/
theorem C1_reset_type_stack_not_cleared :
    (StackManager.reset ⟨[5], [1], []⟩).ValueStack = [] ∧
    (StackManager.reset ⟨[5], [1], []⟩).FrameStack = [] ∧
    (StackManager.reset ⟨[5], [1], []⟩).TypeStack = [1] ∧
    (StackManager.reset ⟨[5], [1], []⟩).TypeStack.length ≠
      (StackManager.reset ⟨[5], [1], []⟩).ValueStack.length := by
  decide

/-- C6: a non-tail `pushFrame(m, pos, L, A, false)` appends exactly one frame
whose `VPos` equals the operand height `H` before the call and whose
`Module`, `From`, `Locals`, `Arity` equal the arguments, and leaves both the
operand stack and the type-tag stack completely unchanged. -/
theorem C6_pushFrame_normal_appends_frame (s : StackManager) (m : Nat)
    (pos : InstrIter) (L A : Nat) :
    (s.pushFrame m pos L A false).FrameStack
        = s.FrameStack ++ [⟨m, pos, L, A, s.size⟩] ∧
    (s.pushFrame m pos L A false).ValueStack = s.ValueStack ∧
    (s.pushFrame m pos L A false).TypeStack = s.TypeStack := by
  simp [StackManager.pushFrame, StackManager.size]

/-- C7: for every state, value and tag, `push(v, t)` followed by `pop()`
returns `v` and restores both the operand stack and the type-tag stack to
exactly their prior contents (the whole state is restored). -/
theorem C7_push_pop_roundtrip (s : StackManager) (v : Value) (t : Nat) :
    (s.pushTyped v t).pop = (v, s) := by
  simp [StackManager.pushTyped, StackManager.pop]

/-- C9: the width-only push appends a tag determined solely by the storage
size `sz` of the pushed value: tag 0 when `sz = 4`, tag 1 when `sz = 8`, and
tag 2 for every other size; the value itself lands on top of the operand
stack. -/
theorem C9_width_tag_classification (s : StackManager) (v : Value)
    (sz : Nat) :
    ((sz = 4 → (s.push v sz).TypeStack.getLast? = some 0) ∧
     (sz = 8 → (s.push v sz).TypeStack.getLast? = some 1) ∧
     (sz ≠ 4 → sz ≠ 8 → (s.push v sz).TypeStack.getLast? = some 2)) ∧
    (s.push v sz).ValueStack.getLast? = some v := by
  refine ⟨⟨fun h1 => ?_, fun h1 => ?_, fun h1 h2 => ?_⟩, ?_⟩
  · simp [StackManager.push, h1]
  · simp [StackManager.push, h1]
  · simp [StackManager.push, h1, h2]
  · simp [StackManager.push]

/-- Witness for C9: the classification evaluated at sizes 4, 8 and 16. -/
theorem C9_width_tag_classification_witness :
    (StackManager.init.push 7 4).TypeStack.getLast? = some 0 ∧
    (StackManager.init.push 7 8).TypeStack.getLast? = some 1 ∧
    (StackManager.init.push 7 16).TypeStack.getLast? = some 2 :=
  ⟨(C9_width_tag_classification StackManager.init 7 4).1.1 rfl,
   (C9_width_tag_classification StackManager.init 7 8).1.2.1 rfl,
   (C9_width_tag_classification StackManager.init 7 16).1.2.2
     (by decide) (by decide)⟩

/-- C4: with a non-empty frame stack whose top frame satisfies
`Locals ≤ VPos`, `Arity ≤ height` and `VPos - Locals ≤ height - Arity`
(on both stacks), `popFrame()` removes exactly the region
`[VPos - Locals, height - Arity)` from the operand and type stacks — the
part below `VPos - Locals` is preserved in place and the top `Arity`
elements survive in order right above it, leaving height
`VPos - Locals + Arity` — pops exactly one frame record, and returns that
frame's saved resume position. -/
theorem C4_popFrame_correct (s : StackManager) (f : Frame)
    (hf : s.FrameStack.getLast? = some f)
    (hA : f.Arity ≤ s.ValueStack.length)
    (hAt : f.Arity ≤ s.TypeStack.length)
    (hreg : f.VPos - f.Locals ≤ s.ValueStack.length - f.Arity)
    (hregt : f.VPos - f.Locals ≤ s.TypeStack.length - f.Arity) :
    (s.popFrame).1 = f.From ∧
    (s.popFrame).2.FrameStack = s.FrameStack.dropLast ∧
    (s.popFrame).2.FrameStack.length = s.FrameStack.length - 1 ∧
    (s.popFrame).2.ValueStack.length = f.VPos - f.Locals + f.Arity ∧
    (s.popFrame).2.ValueStack.take (f.VPos - f.Locals)
        = s.ValueStack.take (f.VPos - f.Locals) ∧
    (s.popFrame).2.ValueStack.drop (f.VPos - f.Locals)
        = s.ValueStack.drop (s.ValueStack.length - f.Arity) ∧
    (s.popFrame).2.TypeStack.length = f.VPos - f.Locals + f.Arity ∧
    (s.popFrame).2.TypeStack.take (f.VPos - f.Locals)
        = s.TypeStack.take (f.VPos - f.Locals) ∧
    (s.popFrame).2.TypeStack.drop (f.VPos - f.Locals)
        = s.TypeStack.drop (s.TypeStack.length - f.Arity) := by
  have hkv : f.VPos - f.Locals ≤ s.ValueStack.length := le_trans hreg
    (Nat.sub_le _ _)
  have hkt : f.VPos - f.Locals ≤ s.TypeStack.length := le_trans hregt
    (Nat.sub_le _ _)
  simp only [StackManager.popFrame, hf, List.length_dropLast]
  refine ⟨trivial, trivial, trivial, ?_, ?_, ?_, ?_, ?_, ?_⟩
  · rw [eraseSeg_length _ _ _ hkv]; omega
  · exact eraseSeg_take _ _ _ hkv
  · exact eraseSeg_drop _ _ _ hkv
  · rw [eraseSeg_length _ _ _ hkt]; omega
  · exact eraseSeg_take _ _ _ hkt
  · exact eraseSeg_drop _ _ _ hkt

/-- Witness for C4: a 5-value stack with a frame `VPos = 3, Locals = 2,
Arity = 1`; `popFrame` erases positions `[1, 4)`, leaving `[1, 5]`, pops the
frame and returns its resume iterator at position 9. -/
theorem C4_popFrame_correct_witness :
    (StackManager.popFrame
        ⟨[1, 2, 3, 4, 5], [0, 0, 1, 1, 0], [⟨3, ⟨9, false⟩, 2, 1, 3⟩]⟩).1
      = ⟨9, false⟩ ∧
    (StackManager.popFrame
        ⟨[1, 2, 3, 4, 5], [0, 0, 1, 1, 0], [⟨3, ⟨9, false⟩, 2, 1, 3⟩]⟩).2.ValueStack.length
      = 2 :=
  ⟨(C4_popFrame_correct ⟨[1, 2, 3, 4, 5], [0, 0, 1, 1, 0],
      [⟨3, ⟨9, false⟩, 2, 1, 3⟩]⟩ ⟨3, ⟨9, false⟩, 2, 1, 3⟩ rfl
      (by decide) (by decide) (by decide) (by decide)).1,
   (C4_popFrame_correct ⟨[1, 2, 3, 4, 5], [0, 0, 1, 1, 0],
      [⟨3, ⟨9, false⟩, 2, 1, 3⟩]⟩ ⟨3, ⟨9, false⟩, 2, 1, 3⟩ rfl
      (by decide) (by decide) (by decide) (by decide)).2.2.2.1⟩

/-- C5: `maybePopFrame(PC)` returns `PC` with the state untouched whenever
at most one frame is present (the base frame is never auto-popped, even when
the last-instruction flag is set) or the flag is not set; with two or more
frames and the flag set, it pops exactly one frame and returns the popped
frame's saved resume position. -/
theorem C5_maybePopFrame_cases (s : StackManager) (PC : InstrIter) :
    (s.FrameStack.length ≤ 1 → s.maybePopFrame PC = (PC, s)) ∧
    (PC.isLast = false → s.maybePopFrame PC = (PC, s)) ∧
    (∀ f, 1 < s.FrameStack.length → PC.isLast = true →
      s.FrameStack.getLast? = some f →
      (s.maybePopFrame PC).1 = f.From ∧
      (s.maybePopFrame PC).2.FrameStack = s.FrameStack.dropLast ∧
      (s.maybePopFrame PC).2.FrameStack.length
        = s.FrameStack.length - 1) := by
  refine ⟨fun h => ?_, fun h => ?_, fun f h1 h2 hf => ?_⟩
  · have hlt : ¬ (1 < s.FrameStack.length) := by omega
    simp [StackManager.maybePopFrame, hlt]
  · simp [StackManager.maybePopFrame, h]
  · simp [StackManager.maybePopFrame, h1, h2, StackManager.popFrame, hf,
      List.length_dropLast]

/-- Witness for C5: with a single (base) frame and the flag set nothing is
popped; with two frames and the flag set the top frame's resume position
(17) is returned and one frame is popped; with the flag clear nothing is
popped. -/
theorem C5_maybePopFrame_cases_witness :
    (StackManager.maybePopFrame ⟨[], [], [⟨0, ⟨3, true⟩, 0, 0, 0⟩]⟩
        ⟨5, true⟩)
      = (⟨5, true⟩, ⟨[], [], [⟨0, ⟨3, true⟩, 0, 0, 0⟩]⟩) ∧
    (StackManager.maybePopFrame
        ⟨[], [], [⟨0, ⟨3, true⟩, 0, 0, 0⟩, ⟨1, ⟨17, false⟩, 0, 0, 0⟩]⟩
        ⟨5, true⟩).1
      = ⟨17, false⟩ ∧
    (StackManager.maybePopFrame
        ⟨[], [], [⟨0, ⟨3, true⟩, 0, 0, 0⟩, ⟨1, ⟨17, false⟩, 0, 0, 0⟩]⟩
        ⟨5, true⟩).2.FrameStack.length = 1 ∧
    (StackManager.maybePopFrame
        ⟨[], [], [⟨0, ⟨3, true⟩, 0, 0, 0⟩, ⟨1, ⟨17, false⟩, 0, 0, 0⟩]⟩
        ⟨5, false⟩)
      = (⟨5, false⟩,
         ⟨[], [], [⟨0, ⟨3, true⟩, 0, 0, 0⟩, ⟨1, ⟨17, false⟩, 0, 0, 0⟩]⟩) :=
  ⟨(C5_maybePopFrame_cases ⟨[], [], [⟨0, ⟨3, true⟩, 0, 0, 0⟩]⟩
      ⟨5, true⟩).1 (by decide),
   ((C5_maybePopFrame_cases
      ⟨[], [], [⟨0, ⟨3, true⟩, 0, 0, 0⟩, ⟨1, ⟨17, false⟩, 0, 0, 0⟩]⟩
      ⟨5, true⟩).2.2 ⟨1, ⟨17, false⟩, 0, 0, 0⟩ (by decide) rfl rfl).1,
   (((C5_maybePopFrame_cases
      ⟨[], [], [⟨0, ⟨3, true⟩, 0, 0, 0⟩, ⟨1, ⟨17, false⟩, 0, 0, 0⟩]⟩
      ⟨5, true⟩).2.2 ⟨1, ⟨17, false⟩, 0, 0, 0⟩ (by decide) rfl rfl).2.2).trans
     (by decide),
   (C5_maybePopFrame_cases
      ⟨[], [], [⟨0, ⟨3, true⟩, 0, 0, 0⟩, ⟨1, ⟨17, false⟩, 0, 0, 0⟩]⟩
      ⟨5, false⟩).2.1 rfl⟩

/-- C8: `stackErase(b, e)` with `e ≤ b ≤ len` removes exactly the
`b - e` elements at positions `[len - b, len - e)` from both the operand and
the type stack: the part below position `len - b` is preserved in place, the
part from position `len - e` on survives in order immediately above it, and
each stack shrinks by `b - e`. -/
theorem C8_eraseRange_correct (s : StackManager) (b e : Nat)
    (hbe : e ≤ b) (hb : b ≤ s.ValueStack.length)
    (hbt : b ≤ s.TypeStack.length) :
    (s.stackErase b e).ValueStack.length
        = s.ValueStack.length - (b - e) ∧
    (s.stackErase b e).ValueStack.take (s.ValueStack.length - b)
        = s.ValueStack.take (s.ValueStack.length - b) ∧
    (s.stackErase b e).ValueStack.drop (s.ValueStack.length - b)
        = s.ValueStack.drop (s.ValueStack.length - e) ∧
    (s.stackErase b e).TypeStack.length
        = s.TypeStack.length - (b - e) ∧
    (s.stackErase b e).TypeStack.take (s.TypeStack.length - b)
        = s.TypeStack.take (s.TypeStack.length - b) ∧
    (s.stackErase b e).TypeStack.drop (s.TypeStack.length - b)
        = s.TypeStack.drop (s.TypeStack.length - e) := by
  have hkv : s.ValueStack.length - b ≤ s.ValueStack.length := Nat.sub_le _ _
  have hkt : s.TypeStack.length - b ≤ s.TypeStack.length := Nat.sub_le _ _
  simp only [StackManager.stackErase]
  refine ⟨?_, ?_, ?_, ?_, ?_, ?_⟩
  · rw [eraseSeg_length _ _ _ hkv]; omega
  · exact eraseSeg_take _ _ _ hkv
  · exact eraseSeg_drop _ _ _ hkv
  · rw [eraseSeg_length _ _ _ hkt]; omega
  · exact eraseSeg_take _ _ _ hkt
  · exact eraseSeg_drop _ _ _ hkt

/-- Witness for C8: the spec's own instance — `eraseRange(5, 2)` on a
10-element stack removes exactly 3 elements (positions `[5, 8)`), leaving 7,
with the bottom 5 and top 2 elements preserved in order. -/
theorem C8_eraseRange_correct_witness :
    (StackManager.stackErase
        ⟨[0, 1, 2, 3, 4, 5, 6, 7, 8, 9], [0, 0, 0, 0, 0, 0, 0, 0, 0, 0],
         []⟩ 5 2).ValueStack.length = 7 ∧
    (StackManager.stackErase
        ⟨[0, 1, 2, 3, 4, 5, 6, 7, 8, 9], [0, 0, 0, 0, 0, 0, 0, 0, 0, 0],
         []⟩ 5 2).ValueStack.take 5 = [0, 1, 2, 3, 4] ∧
    (StackManager.stackErase
        ⟨[0, 1, 2, 3, 4, 5, 6, 7, 8, 9], [0, 0, 0, 0, 0, 0, 0, 0, 0, 0],
         []⟩ 5 2).ValueStack.drop 5 = [8, 9] :=
  ⟨((C8_eraseRange_correct ⟨[0, 1, 2, 3, 4, 5, 6, 7, 8, 9],
      [0, 0, 0, 0, 0, 0, 0, 0, 0, 0], []⟩ 5 2 (by decide) (by decide)
      (by decide)).1).trans (by decide),
   ((C8_eraseRange_correct ⟨[0, 1, 2, 3, 4, 5, 6, 7, 8, 9],
      [0, 0, 0, 0, 0, 0, 0, 0, 0, 0], []⟩ 5 2 (by decide) (by decide)
      (by decide)).2.1).trans (by decide),
   ((C8_eraseRange_correct ⟨[0, 1, 2, 3, 4, 5, 6, 7, 8, 9],
      [0, 0, 0, 0, 0, 0, 0, 0, 0, 0], []⟩ 5 2 (by decide) (by decide)
      (by decide)).2.2.1).trans (by decide)⟩

/-- Counterexample to C3 as stated: a state with operand stack
`[10, 20, 30, 40]` (height 4) and one frame with `VPos = 2, Locals = 1`
satisfies every stated precondition for a tail call with
`localCount = 1`, yet the height after the tail call is
`VPos - Locals + localCount = 2`, not
`heightBefore - Locals + localCount = 4`: the erase also discards the
working values sitting between `VPos` and the retained arguments. -/
theorem C3_tailcall_height_counterexample :
    -- preconditions of the claim at this input
    (¬ ([⟨0, ⟨0, false⟩, 1, 0, 2⟩] : List Frame) = [] ∧
     (⟨0, ⟨0, false⟩, 1, 0, 2⟩ : Frame).Locals
        ≤ (⟨0, ⟨0, false⟩, 1, 0, 2⟩ : Frame).VPos ∧
     (⟨0, ⟨0, false⟩, 1, 0, 2⟩ : Frame).VPos
        - (⟨0, ⟨0, false⟩, 1, 0, 2⟩ : Frame).Locals
        ≤ ([10, 20, 30, 40] : List Value).length - 1) ∧
    -- the frame stack length is indeed unchanged
    (StackManager.pushFrame ⟨[10, 20, 30, 40], [1, 1, 1, 1],
        [⟨0, ⟨0, false⟩, 1, 0, 2⟩]⟩ 5 ⟨7, false⟩ 1 0
        true).FrameStack.length = 1 ∧
    -- but the resulting height is 2, refuting the claimed formula 4 - 1 + 1
    (StackManager.pushFrame ⟨[10, 20, 30, 40], [1, 1, 1, 1],
        [⟨0, ⟨0, false⟩, 1, 0, 2⟩]⟩ 5 ⟨7, false⟩ 1 0
        true).ValueStack.length = 2 ∧
    (StackManager.pushFrame ⟨[10, 20, 30, 40], [1, 1, 1, 1],
        [⟨0, ⟨0, false⟩, 1, 0, 2⟩]⟩ 5 ⟨7, false⟩ 1 0
        true).ValueStack.length
      ≠ ([10, 20, 30, 40] : List Value).length - 1 + 1 := by
  decide

/-- C3 (amended): under the stated preconditions, a tail call leaves the
frame stack length unchanged, and the operand-stack height immediately
afterwards equals `ValueBase - Locals_old + localCount_new`, where
`ValueBase` and `Locals_old` are taken from the top frame before the call
(the stated formula `heightBefore - Locals_old + localCount_new` holds
exactly when `heightBefore = ValueBase`, e.g. in a run of consecutive tail
calls). -/
theorem C3_tailcall_amended (s : StackManager) (f : Frame) (m : Nat)
    (pos : InstrIter) (LocalNum Arity : Nat)
    (hf : s.FrameStack.getLast? = some f)
    (hn : LocalNum ≤ s.ValueStack.length)
    (hreg : f.VPos - f.Locals ≤ s.ValueStack.length - LocalNum) :
    (s.pushFrame m pos LocalNum Arity true).FrameStack.length
        = s.FrameStack.length ∧
    (s.pushFrame m pos LocalNum Arity true).ValueStack.length
        = f.VPos - f.Locals + LocalNum := by
  have hkv : f.VPos - f.Locals ≤ s.ValueStack.length := le_trans hreg
    (Nat.sub_le _ _)
  have hne : s.FrameStack ≠ [] := by
    intro h0
    rw [h0] at hf
    exact Option.noConfusion hf
  have hlen : 1 ≤ s.FrameStack.length := by
    cases hsf : s.FrameStack with
    | nil => exact absurd hsf hne
    | cons a l => simp
  simp only [StackManager.pushFrame, Bool.not_true, Bool.false_eq_true,
    if_false, hf]
  constructor
  · simp [List.length_dropLast]; omega
  · rw [eraseSeg_length _ _ _ hkv]
    omega

/-- Witness for C3 (amended): a consecutive tail call performed right at
`height = ValueBase` (`VPos = 2, Locals = 1`, height 2, `localCount = 1`):
the frame count stays 1 and the height becomes `2 - 1 + 1 = 2`. -/
theorem C3_tailcall_amended_witness :
    (StackManager.pushFrame ⟨[10, 20], [1, 1], [⟨0, ⟨0, false⟩, 1, 0, 2⟩]⟩
        9 ⟨7, false⟩ 1 0 true).FrameStack.length = 1 ∧
    (StackManager.pushFrame ⟨[10, 20], [1, 1], [⟨0, ⟨0, false⟩, 1, 0, 2⟩]⟩
        9 ⟨7, false⟩ 1 0 true).ValueStack.length = 2 :=
  ⟨(C3_tailcall_amended ⟨[10, 20], [1, 1], [⟨0, ⟨0, false⟩, 1, 0, 2⟩]⟩
      ⟨0, ⟨0, false⟩, 1, 0, 2⟩ 9 ⟨7, false⟩ 1 0 rfl (by decide)
      (by decide)).1,
   ((C3_tailcall_amended ⟨[10, 20], [1, 1], [⟨0, ⟨0, false⟩, 1, 0, 2⟩]⟩
      ⟨0, ⟨0, false⟩, 1, 0, 2⟩ 9 ⟨7, false⟩ 1 0 rfl (by decide)
      (by decide)).2).trans (by decide)⟩

/-- C10: restoring a snapshot taken with the bulk getters onto an
arbitrarily mutated live state `t` (any state whatsoever) reproduces the
snapshot-time state exactly — in particular the same `size()`, top value and
`getModule()`.  The universal quantification over `t` captures snapshot
independence: no mutation of the live stacks after snapshot time can affect
what the restore produces, because the getters hand out copies (the C++
getters return and the setters take `std::vector`s by value). -/
theorem C10_snapshot_restore (s t : StackManager) :
    ((t.setValueStack s.getValueStack).setTypeStack
        s.getTypeStack).setFrameStack s.getFrameStack = s ∧
    (((t.setValueStack s.getValueStack).setTypeStack
        s.getTypeStack).setFrameStack s.getFrameStack).size = s.size ∧
    (((t.setValueStack s.getValueStack).setTypeStack
        s.getTypeStack).setFrameStack s.getFrameStack).getTop = s.getTop ∧
    (((t.setValueStack s.getValueStack).setTypeStack
        s.getTypeStack).setFrameStack s.getFrameStack).getModule
      = s.getModule := by
  refine ⟨rfl, rfl, rfl, rfl⟩

/-- One step of the parallel invariant: if the two stacks are the two
projections of a common pair list, they still are after any single
operation, with the pair list evolved by the ghost semantics. -/
theorem applyOp_paired (s : StackManager) (ps : List (Value × Nat))
    (op : StackOp)
    (hv : s.ValueStack = ps.map Prod.fst)
    (ht : s.TypeStack = ps.map Prod.snd) :
    (applyOp s op).ValueStack = (applyOpP ps op).map Prod.fst ∧
    (applyOp s op).TypeStack = (applyOpP ps op).map Prod.snd := by
  cases op with
  | pushW v sz =>
      simp [applyOp, applyOpP, StackManager.push, hv, ht]
  | pushT v t =>
      simp [applyOp, applyOpP, StackManager.pushTyped, hv, ht]
  | popV =>
      simp [applyOp, applyOpP, StackManager.pop, hv, ht, List.map_dropLast]
  | erase b e =>
      simp [applyOp, applyOpP, StackManager.stackErase, hv, ht,
        List.map_take, List.map_drop, List.length_map]

/-- The step relation folded over a whole operation sequence. -/
theorem runOps_paired (ops : List StackOp) : ∀ (s : StackManager)
    (ps : List (Value × Nat)),
    s.ValueStack = ps.map Prod.fst → s.TypeStack = ps.map Prod.snd →
    (runOps s ops).ValueStack = (runOpsP ps ops).map Prod.fst ∧
    (runOps s ops).TypeStack = (runOpsP ps ops).map Prod.snd := by
  induction ops with
  | nil =>
      intro s ps hv ht
      simp only [runOps, runOpsP]
      exact ⟨hv, ht⟩
  | cons op ops ih =>
      intro s ps hv ht
      have h := applyOp_paired s ps op hv ht
      simpa [runOps, runOpsP] using
        ih (applyOp s op) (applyOpP ps op) h.1 h.2

/-- C2: for every sequence of pushes (both variants), pops and erases whose
preconditions all hold, run from the initially empty stack manager, the
type-tag stack and the operand stack are the two projections of one common
list of (value, tag) pairs built by pushing pairs together and removing
pairs wholesale — so they have equal length after every operation (every
prefix of a valid sequence is itself a valid sequence covered by this
statement), and the tag at index `i` is the one pushed together with the
value at index `i`. -/
theorem C2_parallel_invariant (ops : List StackOp)
    (_hok : seqOk StackManager.init ops = true) :
    (runOps StackManager.init ops).TypeStack.length
        = (runOps StackManager.init ops).ValueStack.length ∧
    (runOps StackManager.init ops).ValueStack
        = (runOpsP [] ops).map Prod.fst ∧
    (runOps StackManager.init ops).TypeStack
        = (runOpsP [] ops).map Prod.snd := by
  have h := runOps_paired ops StackManager.init []
    (by simp [StackManager.init]) (by simp [StackManager.init])
  exact ⟨by rw [h.1, h.2, List.length_map, List.length_map], h.1, h.2⟩

/-- Witness for C2: a concrete valid sequence exercising all four
operations; the run ends with operand stack `[9]` and type stack `[2]`, the
projections of the pair list `[(9, 2)]`. -/
theorem C2_parallel_invariant_witness :
    seqOk StackManager.init [StackOp.pushW 5 4, StackOp.pushT 6 7,
        StackOp.popV, StackOp.pushW 9 16, StackOp.erase 2 1] = true ∧
    (runOps StackManager.init [StackOp.pushW 5 4, StackOp.pushT 6 7,
        StackOp.popV, StackOp.pushW 9 16,
        StackOp.erase 2 1]).TypeStack.length
      = (runOps StackManager.init [StackOp.pushW 5 4, StackOp.pushT 6 7,
          StackOp.popV, StackOp.pushW 9 16,
          StackOp.erase 2 1]).ValueStack.length ∧
    (runOps StackManager.init [StackOp.pushW 5 4, StackOp.pushT 6 7,
        StackOp.popV, StackOp.pushW 9 16,
        StackOp.erase 2 1]).ValueStack = [9] ∧
    (runOps StackManager.init [StackOp.pushW 5 4, StackOp.pushT 6 7,
        StackOp.popV, StackOp.pushW 9 16,
        StackOp.erase 2 1]).TypeStack = [2] :=
  ⟨by decide,
   (C2_parallel_invariant [StackOp.pushW 5 4, StackOp.pushT 6 7,
      StackOp.popV, StackOp.pushW 9 16, StackOp.erase 2 1]
      (by decide)).1,
   ((C2_parallel_invariant [StackOp.pushW 5 4, StackOp.pushT 6 7,
      StackOp.popV, StackOp.pushW 9 16, StackOp.erase 2 1]
      (by decide)).2.1).trans (by decide),
   ((C2_parallel_invariant [StackOp.pushW 5 4, StackOp.pushT 6 7,
      StackOp.popV, StackOp.pushW 9 16, StackOp.erase 2 1]
      (by decide)).2.2).trans (by decide)⟩

end Runtime
end WasmEdge
